import Mathlib

/-!
Shallow embedding of the Alfapayment backend's sync core
(`backend/utils.py`, `backend/sync_engine.py`, `backend/rate_limiter.py`,
`backend/background_tasks.py`) and proofs of the specification's claims
about it.

Python values that flow through the reconciliation engine are either
strings or `None`; we model them as `Option String`.  A candidate record
(a Zoho field-bag) and the mapped interpreter dictionary are association
lists from field names to strings; a key that is absent models both a
missing key and a `None` value (Python's `dict.get` does not tell the two
apart).  An `Interpreter` ORM row is modelled as its string id together
with a total attribute map (`getattr(r, f, None)` / `setattr`).
-/

namespace Alfa

/-- A Zoho candidate record: field name ↦ string value. -/
def Candidate : Type := List (String × String)

/-- `candidate.get(k)` (absent key and `None` value both give `none`). -/
def cget (c : Candidate) (k : String) : Option String :=
  List.lookup k c

/-- Python `str.lower`, over the character list (so that concrete
instances evaluate in the kernel). -/
def pyLower (s : String) : String :=
  ⟨s.data.map Char.toLower⟩

/-- Python `str.strip`: leading and trailing whitespace removed. -/
def pyStrip (s : String) : String :=
  ⟨((s.data.dropWhile Char.isWhitespace).reverse.dropWhile Char.isWhitespace).reverse⟩

/-- Python truthiness of a string-or-None value: `None` and `""` are falsy. -/
def truthy : Option String → Bool
  | none => false
  | some s => s ≠ ""

/-- Python `a or b` on string-or-None values. -/
def pyOr (a b : Option String) : Option String :=
  if truthy a then a else b

/-- The normalisation used by `has_changes` / `get_changed_fields`:
`None`, `""` and the case-insensitive text "none" become `None`,
every other value is trimmed. -/
def normalize : Option String → Option String
  | none => none
  | some s => if s = "" ∨ pyLower s = "none" then none else some (pyStrip s)

/-- `clean_rate` in `map_zoho_contact_to_interpreter`: rates that are
`None`, `""` or textually "none" become `""`; otherwise kept verbatim. -/
def cleanRate : Option String → Option String
  | none => some ""
  | some s => some (if s = "" ∨ pyLower s = "none" then "" else s)

/-- An `Interpreter` ORM row: its generated primary key plus its
attributes (`getattr existing f` with default `None`). -/
structure Interpreter where
  iid : String
  attrs : String → Option String

/-- `setattr existing key value`. -/
def setFld (r : Interpreter) (k : String) (v : Option String) : Interpreter :=
  { r with attrs := fun f => if f = k then v else r.attrs f }

/-- The field dictionary `map_zoho_contact_to_interpreter` builds,
before the `None`-filter, in source order. -/
def mapZoho (c : Candidate) : List (String × Option String) :=
  [ ("record_id", cget c "id"),
    ("contact_name", pyOr (cget c "Full_Name") (some "Unknown")),
    ("last_name", cget c "Last_Name"),
    ("email", cget c "Email"),
    ("employee_id",
      pyOr (pyOr (pyOr (cget c "Emplyee_ID") (cget c "Emp_ID"))
        (cget c "Employee_ID")) (cget c "Interpreter_ID")),
    ("cloudbreak_id", cget c "Cloudbreak_ID"),
    ("languagelink_id", pyOr (cget c "Languagelink_ID") (cget c "LanguageLink_ID")),
    ("propio_id", cget c "Propio_ID"),
    ("language", pyOr (cget c "Language") (cget c "Native_Language")),
    ("country", pyOr (cget c "Mailing_Country") (cget c "Country")),
    ("payment_frequency", cget c "Payment_Frequency"),
    ("service_location",
      pyOr (pyOr (pyOr (cget c "Service_Location") (cget c "Work_Location"))
        (cget c "Job_Scheduling")) (some "")),
    ("onboarding_status", cget c "LL_Onboarding_Status"),
    ("rate_per_minute", cleanRate (cget c "Agreed_Rate")),
    ("rate_per_hour", cleanRate (cget c "Rate_Hour")) ]

/-- The mapped interpreter data after
`{k: v for k, v in interpreter_data.items() if v is not None}`. -/
def interpData (c : Candidate) : List (String × String) :=
  (mapZoho c).filterMap (fun kv => kv.2.map (fun v => (kv.1, v)))

/-- `interpreter_data.get(k)` on the filtered dictionary. -/
def dget (d : List (String × String)) (k : String) : Option String :=
  List.lookup k d

/-- The field list `has_changes` compares (no `record_id`). -/
def fieldsToCheckHC : List String :=
  [ "contact_name", "last_name", "email", "employee_id",
    "cloudbreak_id", "languagelink_id", "propio_id",
    "language", "country", "payment_frequency", "service_location",
    "onboarding_status", "rate_per_minute", "rate_per_hour" ]

/-- The field list `get_changed_fields` compares (with `record_id`). -/
def fieldsToCheckGCF : List String :=
  fieldsToCheckHC ++ ["record_id"]

/-- `has_changes(existing, new_data)`. -/
def hasChanges (existing : Interpreter) (d : List (String × String)) : Bool :=
  fieldsToCheckHC.any (fun f => normalize (dget d f) != normalize (existing.attrs f))

/-- `get_changed_fields(existing, new_data)`: the changed fields with
their raw new values, in the tracked-field order. -/
def getChangedFields (existing : Interpreter) (d : List (String × String)) :
    List (String × Option String) :=
  fieldsToCheckGCF.filterMap (fun f =>
    if normalize (dget d f) ≠ normalize (existing.attrs f) then some (f, dget d f)
    else none)

/-- `for key, value in changed_fields.items(): setattr(existing, key, value)`. -/
def applyChanges (r : Interpreter) (ch : List (String × Option String)) : Interpreter :=
  ch.foldl (fun acc kv => setFld acc kv.1 kv.2) r

/-- `Interpreter(id=..., **interpreter_data)`: absent keys are `None`. -/
def Interpreter.ofData (idStr : String) (d : List (String × String)) : Interpreter :=
  ⟨idStr, fun f => dget d f⟩

/-- First list element satisfying `p` together with its index. -/
def findWithIdx (p : Interpreter → Bool) : List Interpreter → Option (Nat × Interpreter)
  | [] => none
  | r :: rs =>
      if p r then some (0, r)
      else (findWithIdx p rs).map (fun ir => (ir.1 + 1, ir.2))

/-- `db.query(Interpreter).filter(Interpreter.f == v).first()`, guarded by
the Python truthiness test on `interpreter_data.get(k)`. -/
def queryBy (store : List Interpreter) (f : String) (v : Option String) :
    Option (Nat × Interpreter) :=
  match v with
  | none => none
  | some s => if s = "" then none else findWithIdx (fun r => r.attrs f == some s) store

/-- The existing-record lookup of `process_interpreter_import`:
record_id, then email, then employee_id; first match wins. -/
def findExisting (store : List Interpreter) (d : List (String × String)) :
    Option (Nat × Interpreter) :=
  (queryBy store "record_id" (dget d "record_id")).orElse (fun _ =>
    (queryBy store "email" (dget d "email")).orElse (fun _ =>
      queryBy store "employee_id" (dget d "employee_id")))

/-- One entry of the `skipped` list. -/
structure SkipEntry where
  email : Option String
  employee_id : Option String
  reason : String
deriving DecidableEq

/-- One entry of the `errors` list. -/
structure ErrEntry where
  record_id : Option String
  error : String
deriving DecidableEq

/-- Accumulated state of the import loop: the four result lists, the
per-batch id counter and the session's interpreter table (records added
or mutated in the session are visible to later queries, as under
SQLAlchemy autoflush). -/
structure ImpAcc where
  created : List Interpreter
  updated : List Interpreter
  skipped : List SkipEntry
  errors : List ErrEntry
  counter : Nat
  store : List Interpreter

/-- The body of `process_interpreter_import`'s loop for one candidate.
`raises c = some e` models an exception raised while processing `c`
(caught by the per-candidate handler). `ts` is the millisecond timestamp
used in generated ids. -/
def processOne (updateExisting : Bool) (raises : Candidate → Option String)
    (ts : String) (acc : ImpAcc) (c : Candidate) : ImpAcc :=
  match raises c with
  | some e => { acc with errors := acc.errors ++ [⟨cget c "id", e⟩] }
  | none =>
    let d := interpData c
    if ¬ truthy (dget d "contact_name") then
      { acc with errors := acc.errors ++
          [⟨cget c "id", "Missing required field: contact_name"⟩] }
    else
      match findExisting acc.store d with
      | some (i, r) =>
        if updateExisting then
          if hasChanges r d then
            let r' := applyChanges r (getChangedFields r d)
            { acc with updated := acc.updated ++ [r'], store := acc.store.set i r' }
          else
            { acc with skipped := acc.skipped ++
                [⟨dget d "email", dget d "employee_id", "No changes detected"⟩] }
        else
          { acc with skipped := acc.skipped ++
              [⟨dget d "email", dget d "employee_id", "Already exists"⟩] }
      | none =>
        let newR := Interpreter.ofData (ts ++ "_" ++ toString acc.counter) d
        { acc with created := acc.created ++ [newR],
                   store := acc.store ++ [newR],
                   counter := acc.counter + 1 }

/-- The import loop over all candidates. -/
def processLoop (updateExisting : Bool) (raises : Candidate → Option String)
    (ts : String) (acc : ImpAcc) (cs : List Candidate) : ImpAcc :=
  cs.foldl (processOne updateExisting raises ts) acc

/-- `process_interpreter_import(candidates, db, update_existing)`. -/
def processImport (candidates : List Candidate) (store : List Interpreter)
    (updateExisting : Bool) (raises : Candidate → Option String) (ts : String) :
    ImpAcc :=
  processLoop updateExisting raises ts ⟨[], [], [], [], 0, store⟩ candidates

/-! ### RateLimiter (`backend/rate_limiter.py`)

Timestamps are rationals (Python floats from `time.time()`). The deque of
past call times is a list, oldest first. -/

/-- `RateLimiter.acquire()` against explicit state `calls` at time `now`:
purge, then either report the wait or record the call. Returns the
optional wait time and the new deque. -/
def rlAcquire (maxCalls : Nat) (timeWindow : ℚ) (calls : List ℚ) (now : ℚ) :
    Option ℚ × List ℚ :=
  let purged := calls.dropWhile (fun t => t < now - timeWindow)
  if maxCalls ≤ purged.length then
    let oldest := purged.headD 0
    (some (max 0 (timeWindow - (now - oldest))), purged)
  else
    (none, purged ++ [now])

/-! ### Background Job Tracker (`backend/background_tasks.py`)

The `OrderedDict` of jobs is an insertion-ordered association list with
unique keys; timestamps are rationals (seconds). -/

/-- The fields of a stored job entry that the retention policy reads
(timestamps as integer seconds, standing in for `datetime`). -/
structure JobData where
  status : String
  timestamp : ℤ
deriving DecidableEq

/-- `MAX_JOBS_RETENTION`. -/
def MAX_JOBS_RETENTION : Nat := 100

/-- `JOB_TTL_HOURS` expressed in seconds. -/
def JOB_TTL_SECONDS : ℤ := 24 * 3600

/-- `set_job_status(job_id, status_data)`: overwrite in place when the key
exists (an `OrderedDict` keeps the original position), else append. -/
def setJobStatus (table : List (String × JobData)) (jobId : String) (d : JobData) :
    List (String × JobData) :=
  if table.any (fun e => e.1 == jobId) then
    table.map (fun e => if e.1 == jobId then (jobId, d) else e)
  else
    table ++ [(jobId, d)]

/-- First pass of `cleanup_old_jobs`: remove completed/failed entries whose
timestamp is older than `now - JOB_TTL`. -/
def removeExpired (now : ℤ) (t : List (String × JobData)) :
    List (String × JobData) :=
  t.filter (fun e =>
    !((e.2.status == "completed" || e.2.status == "failed") &&
      decide (e.2.timestamp < now - JOB_TTL_SECONDS)))

/-- The keys the second pass of `cleanup_old_jobs` deletes: the first
`min(excess, how many there are)` completed/failed entries, in insertion
order. -/
def evictKeys (t : List (String × JobData)) : List String :=
  ((t.filter (fun e => e.2.status == "completed" || e.2.status == "failed")).take
    (min (t.length - MAX_JOBS_RETENTION)
      (t.filter (fun e =>
        e.2.status == "completed" || e.2.status == "failed")).length)).map Prod.fst

/-- Second pass of `cleanup_old_jobs`: delete the `evictKeys` by key. -/
def evictOldest (t : List (String × JobData)) : List (String × JobData) :=
  t.filter (fun e => !((evictKeys t).contains e.1))

/-- `cleanup_old_jobs()` at time `now`: early return at or under the cap;
else drop expired completed/failed entries, then if still over the cap
evict the oldest remaining completed/failed entries. -/
def cleanupOldJobs (now : ℤ) (table : List (String × JobData)) :
    List (String × JobData) :=
  if table.length ≤ MAX_JOBS_RETENTION then table
  else if (removeExpired now table).length ≤ MAX_JOBS_RETENTION then
    removeExpired now table
  else evictOldest (removeExpired now table)

/-- `get_job_status(job_id)`: cleanup, then lookup. Returns the looked-up
entry and the table the call leaves behind. -/
def getJobStatus (now : ℤ) (table : List (String × JobData)) (jobId : String) :
    Option JobData × List (String × JobData) :=
  (List.lookup jobId (cleanupOldJobs now table), cleanupOldJobs now table)

/-! ### Sync Orchestrator (`backend/sync_engine.py`) -/

/-- Run status of a `SyncOperation` (`SyncStatus`; the `partial` member is
named `partialSync` here). -/
inductive RunStatus where
  | running
  | completed
  | partialSync
  | failed
deriving DecidableEq

/-- One item of a Zoho bulk-update response (`response["data"]`). -/
structure ZohoItem where
  code : String
  detailsId : Option String
  message : Option String

/-- `processed_record_ids`: record ids of created and updated records
with a truthy `record_id`. -/
def processedRecordIds (res : ImpAcc) : List String :=
  (res.created ++ res.updated).filterMap (fun r =>
    match r.attrs "record_id" with
    | some v => if v = "" then none else some v
    | none => none)

/-- Structural worker for `chunks100`: the fuel starts at the list length
and each step removes at least one element, so the `0` case is never hit
with a nonempty list. -/
def chunksGo : Nat → List String → List (List String)
  | _, [] => []
  | 0, l => [l]
  | n + 1, x :: xs => ((x :: xs).take 100) :: chunksGo n ((x :: xs).drop 100)

/-- Batches of 100 ids (Zoho's bulk-update limit). -/
def chunks100 (l : List String) : List (List String) :=
  chunksGo l.length l

/-- Write-back over one batch: a batch-level exception charges every id of
the batch; otherwise each response item is a success or a per-item error. -/
def writeBackBatch (resp : List String → Except String (List ZohoItem))
    (batch : List String) : List String × List ErrEntry :=
  match resp batch with
  | .error e => ([], batch.map (fun rid => ⟨some rid, e⟩))
  | .ok items =>
      (items.filterMap (fun it => if it.code = "SUCCESS" then it.detailsId else none),
       items.filterMap (fun it =>
         if it.code = "SUCCESS" then none
         else some ⟨it.detailsId, it.message.getD ""⟩))

/-- The write-back phase over all batches. -/
def writeBack (resp : List String → Except String (List ZohoItem))
    (ids : List String) : List String × List ErrEntry :=
  (chunks100 ids).foldl
    (fun acc batch =>
      let r := writeBackBatch resp batch
      (acc.1 ++ r.1, acc.2 ++ r.2))
    ([], [])

/-- The outcome of one `run_sync` call that the claims inspect. -/
structure RunResult where
  status : RunStatus
  totalFetched : Nat
  recon : ImpAcc
  successfullySynced : List String
  syncErrors : List ErrEntry

/-- `run_sync` over the fetched candidates, with the external bulk-update
modelled by the oracle `resp` and per-candidate exceptions by `raises`.
Every run of this embedding reaches finalisation (the `failed` status is
the orchestrator's catch-all for unhandled exceptions, which a pure
embedding does not produce). -/
def runSync (candidates : List Candidate) (store : List Interpreter)
    (raises : Candidate → Option String) (ts : String)
    (resp : List String → Except String (List ZohoItem)) : RunResult :=
  if candidates.isEmpty then
    { status := .completed, totalFetched := 0,
      recon := ⟨[], [], [], [], 0, store⟩,
      successfullySynced := [], syncErrors := [] }
  else
    let res := processImport candidates store true raises ts
    let wb := writeBack resp (processedRecordIds res)
    { status :=
        if wb.2 ≠ [] ∨ res.errors ≠ [] then .partialSync else .completed,
      totalFetched := candidates.length,
      recon := res,
      successfullySynced := wb.1,
      syncErrors := wb.2 }

/-- The existing-record lookup of `test_sync_single_record`: email exact
match, then employee_id exact match (no record_id phase). -/
def testFindExisting (store : List Interpreter) (d : List (String × String)) :
    Option (Nat × Interpreter) :=
  (queryBy store "email" (dget d "email")).orElse (fun _ =>
    queryBy store "employee_id" (dget d "employee_id"))

/-! ## Theorems -/

/-- Total size of the four classification lists. -/
def lenSum (acc : ImpAcc) : Nat :=
  acc.created.length + acc.updated.length + acc.skipped.length + acc.errors.length

lemma processOne_lenSum (ue : Bool) (raises : Candidate → Option String)
    (ts : String) (acc : ImpAcc) (c : Candidate) :
    lenSum (processOne ue raises ts acc c) = lenSum acc + 1 := by
  unfold processOne
  split
  · simp [lenSum]; omega
  · dsimp only
    split
    · simp [lenSum]; omega
    · split
      · split
        · split <;> simp [lenSum] <;> omega
        · simp [lenSum]; omega
      · simp [lenSum]; omega

lemma processLoop_lenSum (ue : Bool) (raises : Candidate → Option String)
    (ts : String) (cs : List Candidate) (acc : ImpAcc) :
    lenSum (processLoop ue raises ts acc cs) = lenSum acc + cs.length := by
  induction cs generalizing acc with
  | nil => simp [processLoop]
  | cons c cs ih =>
      simp only [processLoop, List.foldl_cons] at *
      rw [ih, processOne_lenSum]
      simp [Nat.add_comm, Nat.add_assoc, Nat.add_left_comm]

/-- C1: every candidate of a batch lands in exactly one of the four
result lists of `process_interpreter_import` — their sizes always sum to
the batch size, and a per-candidate exception (modelled by `raises`)
adds an error entry without aborting the loop. -/
theorem C1_import_partitions_batch (candidates : List Candidate)
    (store : List Interpreter) (updateExisting : Bool)
    (raises : Candidate → Option String) (ts : String) :
    (processImport candidates store updateExisting raises ts).created.length +
    (processImport candidates store updateExisting raises ts).updated.length +
    (processImport candidates store updateExisting raises ts).skipped.length +
    (processImport candidates store updateExisting raises ts).errors.length =
    candidates.length := by
  have h := processLoop_lenSum updateExisting raises ts candidates
    ⟨[], [], [], [], 0, store⟩
  simpa [lenSum, processImport] using h

/-- C5: change detection normalises `None`, `""` and the case-insensitive
text "none" to the same absent value and compares all other values by
their trimmed string form; a local record with `email = None` against a
candidate with `email = ""` contributes no change on the email field; and
`has_changes` reports a change iff some tracked field's normalised values
differ. -/
theorem C5_normalized_change_detection (e : Interpreter)
    (d : List (String × String)) (s : String) :
    (hasChanges e d = true ↔
      ∃ f ∈ fieldsToCheckHC, normalize (dget d f) ≠ normalize (e.attrs f)) ∧
    normalize none = none ∧
    normalize (some "") = none ∧
    normalize (some "None") = none ∧
    normalize (some "nOnE") = none ∧
    (s ≠ "" → pyLower s ≠ "none" → normalize (some s) = some (pyStrip s)) ∧
    (e.attrs "email" = none → dget d "email" = some "" →
      normalize (dget d "email") = normalize (e.attrs "email")) := by
  refine ⟨?_, rfl, by decide, by decide, by decide, ?_, ?_⟩
  · simp [hasChanges, List.any_eq_true, bne_iff_ne]
  · intro h1 h2
    simp [normalize, h1, h2]
  · intro h1 h2
    rw [h1, h2]
    decide

/-- Witness for C5 at a concrete record, candidate and string. -/
theorem C5_normalized_change_detection_witness :
    normalize (some " x ") = some (pyStrip " x ") ∧
    normalize (dget [("email", "")] "email") =
      normalize ((Interpreter.mk "i0" (fun _ => none)).attrs "email") := by
  have h := C5_normalized_change_detection
    (Interpreter.mk "i0" (fun _ => none)) [("email", "")] " x "
  exact ⟨h.2.2.2.2.2.1 (by decide) (by decide), h.2.2.2.2.2.2 rfl (by decide)⟩

/-- C9 counterexample: for the candidate
`{"Full_Name": "Ana Lopez", "Email": "ana@x.com", "Agreed_Rate": "0.65"}`
with an empty local store, `process_interpreter_import` creates exactly one
record, but its `rate_per_hour` is the empty string (the hourly rate is
mapped from the distinct `Rate_Hour` field, absent here), not `"0.65"` as
the claim states. -/
theorem C9_counterexample :
    (processImport [[("Full_Name", "Ana Lopez"), ("Email", "ana@x.com"),
        ("Agreed_Rate", "0.65")]] [] true (fun _ => none) "t").created.map
        (fun r => r.attrs "rate_per_hour") = [some ""] ∧
    (processImport [[("Full_Name", "Ana Lopez"), ("Email", "ana@x.com"),
        ("Agreed_Rate", "0.65")]] [] true (fun _ => none) "t").created.map
        (fun r => r.attrs "rate_per_hour") ≠ [some "0.65"] := by
  constructor
  · decide
  · decide

/-- C9 amended: the Ana Lopez candidate with no existing local match yields
exactly one created record with `contact_name = "Ana Lopez"`,
`rate_per_minute = "0.65"` and `rate_per_hour = ""` (the hourly rate comes
from the separate `Rate_Hour` field, which the candidate does not carry). -/
theorem C9_ana_scenario :
    (processImport [[("Full_Name", "Ana Lopez"), ("Email", "ana@x.com"),
        ("Agreed_Rate", "0.65")]] [] true (fun _ => none) "t").created.map
        (fun r => (r.attrs "contact_name", r.attrs "rate_per_minute",
          r.attrs "rate_per_hour")) =
      [(some "Ana Lopez", some "0.65", some "")] ∧
    (processImport [[("Full_Name", "Ana Lopez"), ("Email", "ana@x.com"),
        ("Agreed_Rate", "0.65")]] [] true (fun _ => none) "t").updated.length = 0 ∧
    (processImport [[("Full_Name", "Ana Lopez"), ("Email", "ana@x.com"),
        ("Agreed_Rate", "0.65")]] [] true (fun _ => none) "t").skipped = [] ∧
    (processImport [[("Full_Name", "Ana Lopez"), ("Email", "ana@x.com"),
        ("Agreed_Rate", "0.65")]] [] true (fun _ => none) "t").errors = [] := by
  refine ⟨by decide, by decide, by decide, by decide⟩

/-- C8 counterexample: a local record carrying only the external-record-id
`"Z1"` is found by the batch path's lookup for a candidate with `id = "Z1"`,
but `test_sync_single_record`'s lookup (email, then employee-id — it has no
record-id phase) finds nothing, so the two lookups disagree. -/
theorem C8_counterexample :
    (testFindExisting
        [⟨"i0", fun f => if f = "record_id" then some "Z1" else none⟩]
        (interpData [("id", "Z1"), ("Full_Name", "Bob")])).isSome = false ∧
    (findExisting
        [⟨"i0", fun f => if f = "record_id" then some "Z1" else none⟩]
        (interpData [("id", "Z1"), ("Full_Name", "Bob")])).isSome = true := by
  constructor
  · decide
  · decide

/-- C8 amended: the single-record test mode looks an existing local record
up by email exact match and then employee-id exact match only — it has no
external-record-id phase — so its lookup agrees with the batch path's
exactly when the mapped candidate carries no truthy external-record-id. -/
theorem C8_lookup_agrees_without_record_id (store : List Interpreter)
    (d : List (String × String))
    (h : truthy (dget d "record_id") = false) :
    testFindExisting store d = findExisting store d := by
  unfold testFindExisting findExisting queryBy
  cases hv : dget d "record_id" with
  | none => rfl
  | some s =>
      rw [hv] at h
      simp only [truthy] at h
      simp only [decide_eq_false_iff_not, Decidable.not_not] at h
      simp [h]

/-- Witness for the amended C8 at a concrete store and candidate. -/
theorem C8_lookup_agrees_without_record_id_witness :
    testFindExisting
        [⟨"i0", fun f => if f = "email" then some "a@x.com" else none⟩]
        (interpData [("Email", "a@x.com"), ("Full_Name", "Bob")]) =
      findExisting
        [⟨"i0", fun f => if f = "email" then some "a@x.com" else none⟩]
        (interpData [("Email", "a@x.com"), ("Full_Name", "Bob")]) :=
  C8_lookup_agrees_without_record_id _ _ (by decide)

/-- C2: a `run_sync` run that reaches finalisation is `completed` iff the
reconciliation produced no errors and the write-back produced no errors;
in particular a reconciliation error with a clean write-back finalises the
run as `partial` (`partialSync`). -/
theorem C2_final_status_completed_iff_no_errors (candidates : List Candidate)
    (store : List Interpreter) (raises : Candidate → Option String)
    (ts : String) (resp : List String → Except String (List ZohoItem)) :
    ((runSync candidates store raises ts resp).status = RunStatus.completed ↔
      ((runSync candidates store raises ts resp).recon.errors = [] ∧
       (runSync candidates store raises ts resp).syncErrors = [])) ∧
    ((runSync candidates store raises ts resp).recon.errors ≠ [] →
      (runSync candidates store raises ts resp).syncErrors = [] →
      (runSync candidates store raises ts resp).status = RunStatus.partialSync) := by
  unfold runSync
  by_cases hc : candidates.isEmpty
  · simp [hc]
  · simp only [hc, if_false, Bool.false_eq_true]
    set res := processImport candidates store true raises ts with hres
    set wb := writeBack resp (processedRecordIds res) with hwb
    by_cases h : wb.2 ≠ [] ∨ res.errors ≠ []
    · simp only [h, if_true]
      constructor
      · constructor
        · intro hst; cases hst
        · rintro ⟨h1, h2⟩
          exact absurd h (by simp [h1, h2])
      · intro _ _; trivial
    · simp only [h, if_false]
      push_neg at h
      constructor
      · simp [h.1, h.2]
      · intro hne _
        exact absurd h.2 hne

/-- Witness for C2: one candidate whose processing raises, with a clean
(empty) write-back, finalises as `partial`. -/
theorem C2_final_status_witness :
    (runSync [[("Full_Name", "A")]] [] (fun _ => some "boom") "t"
      (fun _ => Except.ok [])).status = RunStatus.partialSync := by
  have h := C2_final_status_completed_iff_no_errors [[("Full_Name", "A")]] []
    (fun _ => some "boom") "t" (fun _ => Except.ok [])
  exact h.2 (by decide) (by decide)

/-- C6: after purging timestamps older than `now - W`, an `acquire` that
finds fewer than `K` recorded calls returns no wait and records `now`;
one that finds `K` (or more) recorded calls returns the non-negative time
remaining until the oldest recorded call leaves the window, recording
nothing.  Concretely with `K = 3, W = 1`: three acquires at time 0 return
no wait, a fourth at time 0 returns the positive wait 1, and an acquire
after the window (time 3/2) returns no wait again. -/
theorem C6_rate_limiter_acquire (K : Nat) (W : ℚ) (st : List ℚ) (now : ℚ) :
    ((st.dropWhile (fun t => t < now - W)).length < K →
      rlAcquire K W st now =
        (none, st.dropWhile (fun t => t < now - W) ++ [now])) ∧
    (K ≤ (st.dropWhile (fun t => t < now - W)).length →
      st.Pairwise (· ≤ ·) →
      rlAcquire K W st now =
        (some (max 0 (W - (now - (st.dropWhile (fun t => t < now - W)).headD 0))),
         st.dropWhile (fun t => t < now - W)) ∧
      0 ≤ max 0 (W - (now - (st.dropWhile (fun t => t < now - W)).headD 0)) ∧
      ∀ t ∈ st.dropWhile (fun t => t < now - W),
        (st.dropWhile (fun t => t < now - W)).headD 0 ≤ t) ∧
    rlAcquire 3 1 [] 0 = (none, [0]) ∧
    rlAcquire 3 1 [0] 0 = (none, [0, 0]) ∧
    rlAcquire 3 1 [0, 0] 0 = (none, [0, 0, 0]) ∧
    (rlAcquire 3 1 [0, 0, 0] 0).1 = some 1 ∧ ((0 : ℚ) < 1) ∧
    (rlAcquire 3 1 [0, 0, 0] (3 / 2)).1 = none := by
  refine ⟨?_, ?_, by norm_num [rlAcquire, List.dropWhile],
    by norm_num [rlAcquire, List.dropWhile], by norm_num [rlAcquire, List.dropWhile],
    by norm_num [rlAcquire, List.dropWhile], by norm_num,
    by norm_num [rlAcquire, List.dropWhile]⟩
  · intro hlt
    simp [rlAcquire, Nat.not_le.mpr hlt]
  · intro hK hsorted
    have hp : (st.dropWhile (fun t => t < now - W)).Pairwise (· ≤ ·) :=
      hsorted.sublist (List.dropWhile_sublist _)
    refine ⟨by simp [rlAcquire, hK], le_max_left _ _, ?_⟩
    cases hd : st.dropWhile (fun t => t < now - W) with
    | nil => intro t ht; simp at ht
    | cons h tl =>
        rw [hd] at hp
        intro t ht
        rcases List.mem_cons.mp ht with h1 | h2
        · simp [h1]
        · exact (List.pairwise_cons.mp hp).1 t h2

/-- Witness for C6: both general branches at concrete inputs
(`K = 1, W = 1`): an empty window admits, a full window waits. -/
theorem C6_rate_limiter_acquire_witness :
    rlAcquire 1 1 [] 0 = (none, [0]) ∧
    rlAcquire 1 1 [0, 0] 0 =
      (some (max 0 (1 - ((0 : ℚ) -
        (([0, 0] : List ℚ).dropWhile (fun t => t < (0 : ℚ) - 1)).headD 0))),
       ([0, 0] : List ℚ).dropWhile (fun t => t < (0 : ℚ) - 1)) := by
  constructor
  · exact (C6_rate_limiter_acquire 1 1 [] 0).1 (by norm_num [List.dropWhile])
  · exact ((C6_rate_limiter_acquire 1 1 [0, 0] 0).2.1
      (by norm_num [List.dropWhile]) (by norm_num)).1

lemma evictOldest_length_le (t : List (String × JobData))
    (hall : ∀ e ∈ t, e.2.status = "completed" ∨ e.2.status = "failed")
    (hgt : MAX_JOBS_RETENTION < t.length) :
    (evictOldest t).length ≤ MAX_JOBS_RETENTION := by
  have hjbs : t.filter (fun e =>
      e.2.status == "completed" || e.2.status == "failed") = t := by
    apply List.filter_eq_self.mpr
    intro e he
    rcases hall e he with h | h <;> simp [h]
  have hmin : min (t.length - MAX_JOBS_RETENTION) t.length =
      t.length - MAX_JOBS_RETENTION := by omega
  have hK : evictKeys t = (t.take (t.length - MAX_JOBS_RETENTION)).map Prod.fst := by
    simp only [evictKeys, hjbs, hmin]
  unfold evictOldest
  rw [hK]
  set ex := t.length - MAX_JOBS_RETENTION with hex
  set L := (t.take ex).map Prod.fst with hL
  have hsplit := List.take_append_drop ex t
  calc (t.filter (fun e => !(L.contains e.1))).length
      = ((t.take ex ++ t.drop ex).filter (fun e => !(L.contains e.1))).length := by
        rw [hsplit]
    _ = ((t.take ex).filter (fun e => !(L.contains e.1))).length +
        ((t.drop ex).filter (fun e => !(L.contains e.1))).length := by
        rw [List.filter_append, List.length_append]
    _ ≤ 0 + (t.drop ex).length := by
        apply Nat.add_le_add
        · have hkeys : ∀ (a : String) (b : JobData),
              (a, b) ∈ List.take ex t → a ∈ L := by
            intro a b hab
            rw [hL]; exact List.mem_map.mpr ⟨(a, b), hab, rfl⟩
          simpa using hkeys
        · exact List.length_filter_le _ _
    _ ≤ MAX_JOBS_RETENTION := by
        simp only [List.length_drop]
        omega

lemma mem_cleanup_of_in_progress (now : ℤ) (table : List (String × JobData))
    (hnodup : (table.map Prod.fst).Nodup)
    (e : String × JobData) (he : e ∈ table) (hst : e.2.status = "in_progress") :
    e ∈ cleanupOldJobs now table := by
  unfold cleanupOldJobs
  split
  · exact he
  · have he1 : e ∈ removeExpired now table := by
      unfold removeExpired
      refine List.mem_filter.mpr ⟨he, ?_⟩
      simp [hst]
    split
    · exact he1
    · unfold evictOldest
      refine List.mem_filter.mpr ⟨he1, ?_⟩
      cases hcon : (evictKeys (removeExpired now table)).contains e.1 with
      | false => rfl
      | true =>
          exfalso
          have hmem : e.1 ∈ evictKeys (removeExpired now table) :=
            List.elem_iff.mp hcon
          unfold evictKeys at hmem
          obtain ⟨e', he', hkey⟩ := List.mem_map.mp hmem
          have he'f := List.mem_of_mem_take he'
          have he't : e' ∈ table := by
            have h1 := List.mem_of_mem_filter he'f
            unfold removeExpired at h1
            exact List.mem_of_mem_filter h1
          have hstat' := (List.mem_filter.mp he'f).2
          have heq : e' = e :=
            List.inj_on_of_nodup_map hnodup he't he hkey
          rw [heq] at hstat'
          simp [hst] at hstat'

lemma setJobStatus_nodup_keys (table : List (String × JobData))
    (hnodup : (table.map Prod.fst).Nodup) (j : String) (d : JobData) :
    ((setJobStatus table j d).map Prod.fst).Nodup := by
  unfold setJobStatus
  split
  · have hmap : (table.map (fun e => if e.1 == j then (j, d) else e)).map Prod.fst =
        table.map Prod.fst := by
      rw [List.map_map]
      apply List.map_congr_left
      intro e _
      by_cases h : e.1 = j
      · simp [Function.comp, h]
      · simp [Function.comp, h]
    rw [hmap]; exact hnodup
  · rename_i hnone
    rw [List.map_append]
    refine hnodup.append (by simp) ?_
    intro a ha hb
    simp only [List.map_cons, List.map_nil, List.mem_singleton] at hb
    obtain ⟨e, he, hfst⟩ := List.mem_map.mp ha
    apply hnone
    exact List.any_eq_true.mpr ⟨e, he, by simp [hfst, hb]⟩

/-- C7: on a table of completed/failed jobs (as left by inserting more
than `MAX_JOBS_RETENTION` completed jobs through `set_job_status`), any
`get_job_status` call leaves at most `MAX_JOBS_RETENTION` entries; an
`in_progress` entry is never evicted regardless of its age; and
`set_job_status` preserves key uniqueness. -/
theorem C7_job_retention_bound (now : ℤ) (table : List (String × JobData))
    (jobId : String) (hnodup : (table.map Prod.fst).Nodup) :
    ((∀ e ∈ table, e.2.status = "completed" ∨ e.2.status = "failed") →
      (getJobStatus now table jobId).2.length ≤ MAX_JOBS_RETENTION) ∧
    (∀ e ∈ table, e.2.status = "in_progress" →
      e ∈ (getJobStatus now table jobId).2) ∧
    (∀ (j : String) (d : JobData),
      ((setJobStatus table j d).map Prod.fst).Nodup) := by
  refine ⟨?_, ?_, fun j d => setJobStatus_nodup_keys table hnodup j d⟩
  · intro hall
    show (cleanupOldJobs now table).length ≤ MAX_JOBS_RETENTION
    unfold cleanupOldJobs
    split
    · assumption
    · split
      · assumption
      · rename_i h1 h2
        apply evictOldest_length_le
        · intro e he
          unfold removeExpired at he
          exact hall e (List.mem_of_mem_filter he)
        · omega
  · intro e he hst
    exact mem_cleanup_of_in_progress now table hnodup e he hst

/-- Witness for C7: a 101-entry completed-jobs table is trimmed to 100 by
`get_job_status`, and an over-TTL `in_progress` entry in a second table
survives its cleanup. -/
theorem C7_job_retention_bound_witness :
    (getJobStatus 0 ((List.range 101).map
        (fun n => (toString n, JobData.mk "completed" 0))) "0").2.length ≤
      MAX_JOBS_RETENTION ∧
    ("ip", JobData.mk "in_progress" (-1000000)) ∈
      (getJobStatus 1000000
        ((List.range 101).map (fun n => (toString n, JobData.mk "completed" 0)) ++
          [("ip", JobData.mk "in_progress" (-1000000))]) "ip").2 := by
  constructor
  · exact (C7_job_retention_bound 0 _ "0" (by decide)).1 (by decide)
  · exact (C7_job_retention_bound 1000000 _ "ip" (by decide)).2.1
      ("ip", JobData.mk "in_progress" (-1000000)) (by decide) rfl

lemma lookup_filterMap_none (k : String) (l : List (String × Option String))
    (h : ∀ kv ∈ l, kv.1 ≠ k) :
    List.lookup k (l.filterMap (fun kv => kv.2.map (fun v => (kv.1, v)))) = none := by
  induction l with
  | nil => rfl
  | cons a tl ih =>
      obtain ⟨a1, a2⟩ := a
      have ha : a1 ≠ k := h (a1, a2) (List.mem_cons_self _ _)
      have htl : ∀ kv ∈ tl, kv.1 ≠ k :=
        fun kv hkv => h kv (List.mem_cons_of_mem _ hkv)
      cases a2 with
      | none => exact ih htl
      | some w =>
          have hbeq : (k == a1) = false := beq_eq_false_iff_ne.mpr (Ne.symm ha)
          simpa [List.lookup, hbeq] using ih htl

lemma lookup_filterMap_join (k : String) (l : List (String × Option String))
    (hnodup : (l.map Prod.fst).Nodup) :
    List.lookup k (l.filterMap (fun kv => kv.2.map (fun v => (kv.1, v)))) =
      (List.lookup k l).join := by
  induction l with
  | nil => rfl
  | cons a tl ih =>
      obtain ⟨a1, a2⟩ := a
      rw [List.map_cons, List.nodup_cons] at hnodup
      by_cases hk : k = a1
      · have hbeq : (k == a1) = true := beq_iff_eq.mpr hk
        cases a2 with
        | none =>
            have hnone : ∀ kv ∈ tl, kv.1 ≠ k := by
              intro kv hkv hcon
              apply hnodup.1
              exact List.mem_map.mpr ⟨kv, hkv, by rw [hcon, hk]⟩
            have h1 := lookup_filterMap_none k tl hnone
            simpa [List.lookup, hbeq] using h1
        | some w => simp [List.lookup, hbeq]
      · have hbeq : (k == a1) = false := beq_eq_false_iff_ne.mpr hk
        cases a2 with
        | none => simpa [List.lookup, hbeq] using ih hnodup.2
        | some w => simpa [List.lookup, hbeq] using ih hnodup.2

lemma mapZoho_keys_nodup (c : Candidate) : ((mapZoho c).map Prod.fst).Nodup := by
  simp [mapZoho]

lemma dget_interpData_eq (c : Candidate) (k : String) :
    dget (interpData c) k = (List.lookup k (mapZoho c)).join :=
  lookup_filterMap_join k (mapZoho c) (mapZoho_keys_nodup c)

lemma dget_contact_name (c : Candidate) :
    dget (interpData c) "contact_name" = pyOr (cget c "Full_Name") (some "Unknown") := by
  rw [dget_interpData_eq]
  simp [mapZoho, List.lookup]

lemma truthy_pyOr_unknown (a : Option String) :
    truthy (pyOr a (some "Unknown")) = true := by
  unfold pyOr
  by_cases h : truthy a = true
  · rw [if_pos h]; exact h
  · rw [if_neg h]; decide

lemma contactName_truthy (c : Candidate) :
    truthy (dget (interpData c) "contact_name") = true := by
  rw [dget_contact_name]
  exact truthy_pyOr_unknown _

lemma applyChanges_attrs_of_not_mem (ch : List (String × Option String))
    (f : String) (h : ∀ kv ∈ ch, kv.1 ≠ f) (r : Interpreter) :
    (applyChanges r ch).attrs f = r.attrs f := by
  induction ch generalizing r with
  | nil => rfl
  | cons kv tl ih =>
      have hkv : kv.1 ≠ f := h kv (List.mem_cons_self _ _)
      have htl : ∀ kv' ∈ tl, kv'.1 ≠ f :=
        fun kv' hkv' => h kv' (List.mem_cons_of_mem kv hkv')
      show (applyChanges (setFld r kv.1 kv.2) tl).attrs f = r.attrs f
      rw [ih htl]
      simp [setFld, Ne.symm hkv]

lemma applyChanges_attrs_last (ch : List (String × Option String))
    (f : String) (v : Option String)
    (hall : ∀ kv ∈ ch, kv.1 = f → kv.2 = v)
    (hex : ∃ kv ∈ ch, kv.1 = f) (r : Interpreter) :
    (applyChanges r ch).attrs f = v := by
  induction ch generalizing r with
  | nil => obtain ⟨kv, hkv, _⟩ := hex; cases hkv
  | cons kv tl ih =>
      show (applyChanges (setFld r kv.1 kv.2) tl).attrs f = v
      by_cases htl : ∃ kv' ∈ tl, kv'.1 = f
      · exact ih (fun kv' hkv' => hall kv' (List.mem_cons_of_mem kv hkv')) htl _
      · push_neg at htl
        obtain ⟨kv', hkv', hk1⟩ := hex
        rcases List.mem_cons.mp hkv' with he | he
        · rw [applyChanges_attrs_of_not_mem tl f htl]
          have h1 : kv.1 = f := he ▸ hk1
          have h2 : kv.2 = v := hall kv (List.mem_cons_self _ _) h1
          simp [setFld, h1, h2]
        · exact absurd hk1 (htl kv' he)

lemma getChangedFields_attrs (r : Interpreter) (d : List (String × String))
    (f : String) (hf : f ∈ fieldsToCheckGCF)
    (hne : normalize (dget d f) ≠ normalize (r.attrs f)) :
    (applyChanges r (getChangedFields r d)).attrs f = dget d f := by
  apply applyChanges_attrs_last
  · intro kv hkv hk1
    obtain ⟨g, _, heq⟩ := List.mem_filterMap.mp hkv
    by_cases h : normalize (dget d g) ≠ normalize (r.attrs g)
    · rw [if_pos h] at heq
      cases heq
      rw [← hk1]
    · rw [if_neg h] at heq
      cases heq
  · exact ⟨(f, dget d f),
      List.mem_filterMap.mpr ⟨f, hf, by rw [if_pos hne]⟩, rfl⟩

lemma hasChanges_true_of_field (r : Interpreter) (d : List (String × String))
    (f : String) (hf : f ∈ fieldsToCheckHC)
    (hne : normalize (dget d f) ≠ normalize (r.attrs f)) :
    hasChanges r d = true :=
  List.any_eq_true.mpr ⟨f, hf, bne_iff_ne.mpr hne⟩

/-- C4: a candidate supplying an explicit empty string for a tracked field
that is non-empty on the matched local record is classified `updated`, and
the raw empty string is written to that field. -/
theorem C4_empty_string_clears_field (store : List Interpreter) (c : Candidate)
    (f : String) (i : Nat) (r : Interpreter) (ts : String)
    (hf : f ∈ fieldsToCheckHC)
    (hemp : dget (interpData c) f = some "")
    (hloc : normalize (r.attrs f) ≠ none)
    (hmatch : findExisting store (interpData c) = some (i, r)) :
    ∃ r', (processImport [c] store true (fun _ => none) ts).updated = [r'] ∧
      r'.attrs f = some "" ∧
      (processImport [c] store true (fun _ => none) ts).store = store.set i r' := by
  have hne : normalize (dget (interpData c) f) ≠ normalize (r.attrs f) := by
    rw [hemp]
    intro hcon
    exact hloc (by simpa [normalize] using hcon.symm)
  have hch : hasChanges r (interpData c) = true :=
    hasChanges_true_of_field r (interpData c) f hf hne
  have hgcf : f ∈ fieldsToCheckGCF := by
    unfold fieldsToCheckGCF
    exact List.mem_append_left _ hf
  refine ⟨applyChanges r (getChangedFields r (interpData c)), ?_, ?_, ?_⟩
  · simp [processImport, processLoop, processOne, contactName_truthy, hmatch, hch]
  · rw [getChangedFields_attrs r (interpData c) f hgcf hne, hemp]
  · simp [processImport, processLoop, processOne, contactName_truthy, hmatch, hch]

/-- Witness for C4: clearing a non-empty `cloudbreak_id` with an explicit
empty `Cloudbreak_ID` cell on a candidate matched by email. -/
theorem C4_empty_string_clears_field_witness :
    ∃ r', (processImport [[("Full_Name", "Bob"), ("Email", "a@x.com"),
        ("Cloudbreak_ID", "")]]
        [⟨"i1", fun g => if g = "email" then some "a@x.com"
          else if g = "contact_name" then some "Bob"
          else if g = "cloudbreak_id" then some "CB1" else none⟩]
        true (fun _ => none) "t").updated = [r'] ∧
      r'.attrs "cloudbreak_id" = some "" ∧
      (processImport [[("Full_Name", "Bob"), ("Email", "a@x.com"),
        ("Cloudbreak_ID", "")]]
        [⟨"i1", fun g => if g = "email" then some "a@x.com"
          else if g = "contact_name" then some "Bob"
          else if g = "cloudbreak_id" then some "CB1" else none⟩]
        true (fun _ => none) "t").store =
        [⟨"i1", fun g => if g = "email" then some "a@x.com"
          else if g = "contact_name" then some "Bob"
          else if g = "cloudbreak_id" then some "CB1" else none⟩].set 0
          r' := by
  exact C4_empty_string_clears_field
    [⟨"i1", fun g => if g = "email" then some "a@x.com"
      else if g = "contact_name" then some "Bob"
      else if g = "cloudbreak_id" then some "CB1" else none⟩]
    [("Full_Name", "Bob"), ("Email", "a@x.com"), ("Cloudbreak_ID", "")]
    "cloudbreak_id" 0
    ⟨"i1", fun g => if g = "email" then some "a@x.com"
      else if g = "contact_name" then some "Bob"
      else if g = "cloudbreak_id" then some "CB1" else none⟩
    "t" (by decide) (by decide) (by decide) rfl

/-- C10: `has_changes` tracks 14 fields and excludes `record_id` while
`get_changed_fields` additionally tracks it; hence a candidate matched to
an existing record (by email or employee-id) whose mapped data agrees on
all 14 tracked fields — however its `record_id` differs — is skipped with
"No changes detected" and the local record's `record_id` is never
backfilled (the store is unchanged). -/
theorem C10_record_id_never_backfilled (store : List Interpreter)
    (c : Candidate) (i : Nat) (r : Interpreter) (ts : String)
    (hmatch : findExisting store (interpData c) = some (i, r))
    (heq : ∀ f ∈ fieldsToCheckHC,
      normalize (dget (interpData c) f) = normalize (r.attrs f)) :
    fieldsToCheckHC.length = 14 ∧
    "record_id" ∉ fieldsToCheckHC ∧
    fieldsToCheckGCF = fieldsToCheckHC ++ ["record_id"] ∧
    (processImport [c] store true (fun _ => none) ts).skipped =
      [⟨dget (interpData c) "email", dget (interpData c) "employee_id",
        "No changes detected"⟩] ∧
    (processImport [c] store true (fun _ => none) ts).updated = [] ∧
    (processImport [c] store true (fun _ => none) ts).created = [] ∧
    (processImport [c] store true (fun _ => none) ts).errors = [] ∧
    (processImport [c] store true (fun _ => none) ts).store = store := by
  have hch : hasChanges r (interpData c) = false := by
    unfold hasChanges
    rw [List.any_eq_false]
    intro f hf
    simp [heq f hf]
  refine ⟨by decide, by decide, rfl, ?_, ?_, ?_, ?_, ?_⟩ <;>
    simp [processImport, processLoop, processOne, contactName_truthy, hmatch, hch]

/-- Witness for C10: a record matched by email whose data differs from the
candidate's only in `record_id` (locally absent, `"Z9"` upstream). -/
theorem C10_record_id_never_backfilled_witness :
    fieldsToCheckHC.length = 14 ∧
    "record_id" ∉ fieldsToCheckHC ∧
    fieldsToCheckGCF = fieldsToCheckHC ++ ["record_id"] ∧
    (processImport [[("Full_Name", "Bob"), ("Email", "a@x.com"), ("id", "Z9")]]
      [⟨"i1", fun g => if g = "email" then some "a@x.com"
        else if g = "contact_name" then some "Bob" else none⟩]
      true (fun _ => none) "t").skipped =
      [⟨dget (interpData [("Full_Name", "Bob"), ("Email", "a@x.com"), ("id", "Z9")])
          "email",
        dget (interpData [("Full_Name", "Bob"), ("Email", "a@x.com"), ("id", "Z9")])
          "employee_id",
        "No changes detected"⟩] ∧
    (processImport [[("Full_Name", "Bob"), ("Email", "a@x.com"), ("id", "Z9")]]
      [⟨"i1", fun g => if g = "email" then some "a@x.com"
        else if g = "contact_name" then some "Bob" else none⟩]
      true (fun _ => none) "t").updated = [] ∧
    (processImport [[("Full_Name", "Bob"), ("Email", "a@x.com"), ("id", "Z9")]]
      [⟨"i1", fun g => if g = "email" then some "a@x.com"
        else if g = "contact_name" then some "Bob" else none⟩]
      true (fun _ => none) "t").created = [] ∧
    (processImport [[("Full_Name", "Bob"), ("Email", "a@x.com"), ("id", "Z9")]]
      [⟨"i1", fun g => if g = "email" then some "a@x.com"
        else if g = "contact_name" then some "Bob" else none⟩]
      true (fun _ => none) "t").errors = [] ∧
    (processImport [[("Full_Name", "Bob"), ("Email", "a@x.com"), ("id", "Z9")]]
      [⟨"i1", fun g => if g = "email" then some "a@x.com"
        else if g = "contact_name" then some "Bob" else none⟩]
      true (fun _ => none) "t").store =
      [⟨"i1", fun g => if g = "email" then some "a@x.com"
        else if g = "contact_name" then some "Bob" else none⟩] :=
  C10_record_id_never_backfilled
    [⟨"i1", fun g => if g = "email" then some "a@x.com"
      else if g = "contact_name" then some "Bob" else none⟩]
    [("Full_Name", "Bob"), ("Email", "a@x.com"), ("id", "Z9")]
    0
    ⟨"i1", fun g => if g = "email" then some "a@x.com"
      else if g = "contact_name" then some "Bob" else none⟩
    "t" rfl (by decide)

/-! ### C3: idempotence of reconciliation -/

/-- The three alternate-key field names the lookup matches on. -/
def matchKeys : List String := ["record_id", "email", "employee_id"]

/-- `d` shares no truthy matching key with `d'`. -/
def noAlias (d d' : List (String × String)) : Bool :=
  matchKeys.all (fun k => !(truthy (dget d k)) || (dget d k != dget d' k))

/-- The records pass 1 creates: one `Interpreter.ofData` per candidate,
with the batch counter running from `n`. -/
def mkCreated (ts : String) : Nat → List Candidate → List Interpreter
  | _, [] => []
  | n, c :: cs =>
      Interpreter.ofData (ts ++ "_" ++ toString n) (interpData c) ::
        mkCreated ts (n + 1) cs

lemma mkCreated_length (ts : String) (n : Nat) (cs : List Candidate) :
    (mkCreated ts n cs).length = cs.length := by
  induction cs generalizing n with
  | nil => rfl
  | cons c cs ih => simp [mkCreated, ih]

lemma mkCreated_append (ts : String) (l1 l2 : List Candidate) (n : Nat) :
    mkCreated ts n (l1 ++ l2) =
      mkCreated ts n l1 ++ mkCreated ts (n + l1.length) l2 := by
  induction l1 generalizing n with
  | nil => simp [mkCreated]
  | cons c l1 ih =>
      have harith : n + 1 + l1.length = n + (l1.length + 1) := by omega
      simp only [List.cons_append, mkCreated, List.length_cons, List.append_eq]
      rw [ih (n + 1), harith]

lemma mem_mkCreated (ts : String) (n : Nat) (cs : List Candidate)
    (r : Interpreter) (hr : r ∈ mkCreated ts n cs) :
    ∃ c ∈ cs, ∃ m : Nat,
      r = Interpreter.ofData (ts ++ "_" ++ toString m) (interpData c) := by
  induction cs generalizing n with
  | nil => cases hr
  | cons c cs ih =>
      rcases List.mem_cons.mp hr with he | he
      · exact ⟨c, List.mem_cons_self _ _, n, he⟩
      · obtain ⟨c', hc', m, hm⟩ := ih (n + 1) he
        exact ⟨c', List.mem_cons_of_mem _ hc', m, hm⟩

lemma noAlias_key (d d' : List (String × String)) (k : String)
    (hk : k ∈ matchKeys) (h : noAlias d d' = true)
    (ht : truthy (dget d k) = true) : dget d k ≠ dget d' k := by
  have := List.all_eq_true.mp h k hk
  rw [ht] at this
  simpa using this

lemma noAlias_key_symm (d d' : List (String × String)) (k : String)
    (hk : k ∈ matchKeys) (h : noAlias d d' = true)
    (ht : truthy (dget d' k) = true) : dget d k ≠ dget d' k := by
  intro heq
  exact noAlias_key d d' k hk h (heq ▸ ht) heq

lemma findWithIdx_eq_none (p : Interpreter → Bool) (l : List Interpreter)
    (h : ∀ r ∈ l, p r = false) : findWithIdx p l = none := by
  induction l with
  | nil => rfl
  | cons r rs ih =>
      simp only [findWithIdx, h r (List.mem_cons_self _ _), Bool.false_eq_true,
        if_false]
      rw [ih (fun r' hr' => h r' (List.mem_cons_of_mem _ hr'))]
      rfl

lemma findWithIdx_append_left_none (p : Interpreter → Bool)
    (l2 : List Interpreter) :
    ∀ l1 : List Interpreter, findWithIdx p l1 = none →
    findWithIdx p (l1 ++ l2) =
      (findWithIdx p l2).map (fun ir => (ir.1 + l1.length, ir.2)) := by
  intro l1
  induction l1 with
  | nil =>
      intro _
      cases hq : findWithIdx p l2 <;> simp [hq]
  | cons r rs ih =>
      intro h
      cases hp : p r with
      | true => simp [findWithIdx, hp] at h
      | false =>
          simp only [findWithIdx, hp, Bool.false_eq_true, if_false] at h
          have h2 : findWithIdx p rs = none := by
            cases hfw : findWithIdx p rs
            · rfl
            · rw [hfw] at h; cases h
          rw [List.cons_append]
          simp only [findWithIdx, hp, Bool.false_eq_true, if_false]
          rw [ih h2]
          cases hq : findWithIdx p l2 with
          | none => rfl
          | some ir =>
              simp only [Option.map_some', List.length_cons, Option.some.injEq,
                Prod.mk.injEq, and_true]
              omega

lemma findWithIdx_append_mid (p : Interpreter → Bool)
    (l1 l2 : List Interpreter) (mid : Interpreter)
    (h1 : findWithIdx p l1 = none) (hp : p mid = true) :
    findWithIdx p (l1 ++ mid :: l2) = some (l1.length, mid) := by
  rw [findWithIdx_append_left_none p (mid :: l2) l1 h1]
  simp [findWithIdx, hp]

lemma queryBy_not_truthy (store : List Interpreter) (k : String)
    (v : Option String) (h : truthy v = false) : queryBy store k v = none := by
  cases v with
  | none => rfl
  | some s =>
      have hs : s = "" := by simpa [truthy] using h
      simp [queryBy, hs]

lemma queryBy_append_none (s1 s2 : List Interpreter) (k : String)
    (v : Option String) (h1 : queryBy s1 k v = none)
    (h2 : queryBy s2 k v = none) : queryBy (s1 ++ s2) k v = none := by
  cases v with
  | none => rfl
  | some s =>
      by_cases hs : s = ""
      · simp [queryBy, hs]
      · simp only [queryBy, hs, if_neg, if_false] at h1 h2 ⊢
        rw [findWithIdx_append_left_none _ s2 s1 h1, h2]
        rfl

lemma findExisting_eq_none_iff (store : List Interpreter)
    (d : List (String × String)) :
    findExisting store d = none ↔
      queryBy store "record_id" (dget d "record_id") = none ∧
      queryBy store "email" (dget d "email") = none ∧
      queryBy store "employee_id" (dget d "employee_id") = none := by
  unfold findExisting
  cases h1 : queryBy store "record_id" (dget d "record_id") <;>
    cases h2 : queryBy store "email" (dget d "email") <;>
      cases h3 : queryBy store "employee_id" (dget d "employee_id") <;>
        simp [Option.orElse]

lemma ofData_attrs (idStr : String) (d : List (String × String)) (f : String) :
    (Interpreter.ofData idStr d).attrs f = dget d f := rfl

lemma hasChanges_ofData (idStr : String) (d : List (String × String)) :
    hasChanges (Interpreter.ofData idStr d) d = false := by
  unfold hasChanges
  rw [List.any_eq_false]
  intro f _
  simp [Interpreter.ofData]

lemma queryBy_mkCreated_none (ts : String) (n : Nat) (pre : List Candidate)
    (d : List (String × String)) (k : String) (hk : k ∈ matchKeys)
    (halias : ∀ c' ∈ pre, noAlias (interpData c') d = true) :
    queryBy (mkCreated ts n pre) k (dget d k) = none := by
  cases hv : dget d k with
  | none => rfl
  | some s =>
      by_cases hs : s = ""
      · simp [queryBy, hs]
      · simp only [queryBy, hs, if_false]
        apply findWithIdx_eq_none
        intro r hr
        obtain ⟨c', hc', m, hm⟩ := mem_mkCreated ts n pre r hr
        subst hm
        have hne : dget (interpData c') k ≠ dget d k :=
          noAlias_key_symm _ _ k hk (halias c' hc')
            (by rw [hv]; simp [truthy, hs])
        show (dget (interpData c') k == some s) = false
        rw [hv] at hne
        exact beq_eq_false_iff_ne.mpr hne

lemma queryBy_mid (pre rest : List Interpreter) (d : List (String × String))
    (idStr k : String) (hpre : queryBy pre k (dget d k) = none)
    (ht : truthy (dget d k) = true) :
    queryBy (pre ++ Interpreter.ofData idStr d :: rest) k (dget d k) =
      some (pre.length, Interpreter.ofData idStr d) := by
  cases hv : dget d k with
  | none => rw [hv] at ht; cases ht
  | some s =>
      have hs : ¬ s = "" := by rw [hv] at ht; simpa [truthy] using ht
      rw [hv] at hpre
      simp only [queryBy, hs, if_false] at hpre ⊢
      apply findWithIdx_append_mid _ _ _ _ hpre
      show ((Interpreter.ofData idStr d).attrs k == some s) = true
      rw [ofData_attrs, hv]
      simp

lemma findExisting_eq_mid (pre rest : List Interpreter)
    (d : List (String × String)) (idStr : String)
    (hpre : ∀ k ∈ matchKeys, queryBy pre k (dget d k) = none)
    (hident : truthy (dget d "record_id") = true ∨
      truthy (dget d "email") = true ∨
      truthy (dget d "employee_id") = true) :
    findExisting (pre ++ Interpreter.ofData idStr d :: rest) d =
      some (pre.length, Interpreter.ofData idStr d) := by
  unfold findExisting
  by_cases h1 : truthy (dget d "record_id") = true
  · rw [queryBy_mid pre rest d idStr "record_id" (hpre _ (by decide)) h1]
    rfl
  · rw [queryBy_not_truthy _ _ _ ((Bool.not_eq_true _).mp h1)]
    by_cases h2 : truthy (dget d "email") = true
    · rw [queryBy_mid pre rest d idStr "email" (hpre _ (by decide)) h2]
      rfl
    · rw [queryBy_not_truthy _ _ _ ((Bool.not_eq_true _).mp h2)]
      have h3 : truthy (dget d "employee_id") = true := by
        rcases hident with h | h | h
        · exact absurd h h1
        · exact absurd h h2
        · exact h
      rw [queryBy_mid pre rest d idStr "employee_id" (hpre _ (by decide)) h3]
      rfl

lemma processOne_creates (ts : String) (acc : ImpAcc) (c : Candidate)
    (hfind : findExisting acc.store (interpData c) = none) :
    processOne true (fun _ => none) ts acc c =
      { acc with
        created := acc.created ++
          [Interpreter.ofData (ts ++ "_" ++ toString acc.counter) (interpData c)],
        store := acc.store ++
          [Interpreter.ofData (ts ++ "_" ++ toString acc.counter) (interpData c)],
        counter := acc.counter + 1 } := by
  simp [processOne, contactName_truthy, hfind]

lemma processOne_skips (ts : String) (acc : ImpAcc) (c : Candidate)
    (i : Nat) (r : Interpreter)
    (hfind : findExisting acc.store (interpData c) = some (i, r))
    (hch : hasChanges r (interpData c) = false) :
    processOne true (fun _ => none) ts acc c =
      { acc with skipped := acc.skipped ++
        [⟨dget (interpData c) "email", dget (interpData c) "employee_id",
          "No changes detected"⟩] } := by
  simp [processOne, contactName_truthy, hfind, hch]

lemma processLoop_cons (ue : Bool) (raises : Candidate → Option String)
    (ts : String) (acc : ImpAcc) (c : Candidate) (cs : List Candidate) :
    processLoop ue raises ts acc (c :: cs) =
      processLoop ue raises ts (processOne ue raises ts acc c) cs := rfl

lemma pass1_loop (ts : String) (s0 : List Interpreter) :
    ∀ (cs pre : List Candidate),
    (∀ c ∈ cs, findExisting s0 (interpData c) = none) →
    (∀ c' ∈ pre, ∀ c ∈ cs, noAlias (interpData c') (interpData c) = true) →
    List.Pairwise (fun a b => noAlias (interpData a) (interpData b) = true) cs →
    processLoop true (fun _ => none) ts
      ⟨mkCreated ts 0 pre, [], [], [], pre.length, s0 ++ mkCreated ts 0 pre⟩ cs =
    ⟨mkCreated ts 0 (pre ++ cs), [], [], [], (pre ++ cs).length,
      s0 ++ mkCreated ts 0 (pre ++ cs)⟩ := by
  intro cs
  induction cs with
  | nil =>
      intro pre _ _ _
      simp [processLoop]
  | cons c cs' ih =>
      intro pre hfind halias hpair
      have h0 := (findExisting_eq_none_iff s0 (interpData c)).mp
        (hfind c (List.mem_cons_self _ _))
      have hqall : ∀ k ∈ matchKeys,
          queryBy (s0 ++ mkCreated ts 0 pre) k (dget (interpData c) k) = none := by
        intro k hk
        apply queryBy_append_none
        · simp only [matchKeys, List.mem_cons, List.mem_singleton,
            List.not_mem_nil, or_false] at hk
          rcases hk with rfl | rfl | rfl
          · exact h0.1
          · exact h0.2.1
          · exact h0.2.2
        · exact queryBy_mkCreated_none ts 0 pre _ k hk
            (fun c' hc' => halias c' hc' c (List.mem_cons_self _ _))
      have hnone : findExisting (s0 ++ mkCreated ts 0 pre) (interpData c) = none :=
        (findExisting_eq_none_iff _ _).mpr
          ⟨hqall _ (by decide), hqall _ (by decide), hqall _ (by decide)⟩
      rw [processLoop_cons, processOne_creates ts _ c hnone]
      have hmk : mkCreated ts 0 (pre ++ [c]) =
          mkCreated ts 0 pre ++
            [Interpreter.ofData (ts ++ "_" ++ toString pre.length) (interpData c)] := by
        rw [mkCreated_append]
        simp [mkCreated]
      have ih' := ih (pre ++ [c])
        (fun x hx => hfind x (List.mem_cons_of_mem _ hx))
        (by
          intro c' hc' x hx
          rcases List.mem_append.mp hc' with h | h
          · exact halias c' h x (List.mem_cons_of_mem _ hx)
          · rw [List.mem_singleton] at h
            subst h
            exact (List.pairwise_cons.mp hpair).1 x hx)
        (List.pairwise_cons.mp hpair).2
      rw [hmk] at ih'
      simp only [List.length_append, List.length_singleton] at ih'
      rw [← List.append_assoc] at ih'
      simp only [List.append_assoc, List.singleton_append] at ih'
      simpa [Nat.add_assoc, Nat.add_comm, Nat.add_left_comm] using ih'

lemma pass2_loop (ts2 : String) (store1 : List Interpreter) :
    ∀ (cs : List Candidate) (acc : ImpAcc), acc.store = store1 →
    (∀ c ∈ cs, ∃ p r, findExisting store1 (interpData c) = some (p, r) ∧
      hasChanges r (interpData c) = false) →
    processLoop true (fun _ => none) ts2 acc cs =
      { acc with skipped := acc.skipped ++ cs.map (fun c =>
          ⟨dget (interpData c) "email", dget (interpData c) "employee_id",
            "No changes detected"⟩) } := by
  intro cs
  induction cs with
  | nil =>
      intro acc hst _
      simp [processLoop]
  | cons c cs' ih =>
      intro acc hst hfind
      obtain ⟨p, r, hf, hch⟩ := hfind c (List.mem_cons_self _ _)
      rw [processLoop_cons, processOne_skips ts2 acc c p r (by rw [hst]; exact hf) hch]
      rw [ih _ (by simpa using hst) (fun x hx => hfind x (List.mem_cons_of_mem _ hx))]
      simp

/-- C3 (amended): for a batch whose candidates each carry at least one
truthy matching identifier, share no identifier pairwise, and match no
record of the initial store, pass 1 classifies every candidate as created;
re-running the identical batch over the resulting store classifies every
candidate as skipped with "No changes detected" and leaves the store
unchanged. -/
theorem C3_reconciliation_idempotent (cs : List Candidate)
    (s0 : List Interpreter) (ts ts2 : String)
    (H2 : ∀ c ∈ cs, findExisting s0 (interpData c) = none)
    (H3 : ∀ c ∈ cs, truthy (dget (interpData c) "record_id") = true ∨
      truthy (dget (interpData c) "email") = true ∨
      truthy (dget (interpData c) "employee_id") = true)
    (H4 : List.Pairwise
      (fun a b => noAlias (interpData a) (interpData b) = true) cs) :
    (processImport cs s0 true (fun _ => none) ts).created.length = cs.length ∧
    (processImport cs s0 true (fun _ => none) ts).updated = [] ∧
    (processImport cs s0 true (fun _ => none) ts).skipped = [] ∧
    (processImport cs s0 true (fun _ => none) ts).errors = [] ∧
    (processImport cs (processImport cs s0 true (fun _ => none) ts).store true
      (fun _ => none) ts2).skipped =
      cs.map (fun c => ⟨dget (interpData c) "email",
        dget (interpData c) "employee_id", "No changes detected"⟩) ∧
    (processImport cs (processImport cs s0 true (fun _ => none) ts).store true
      (fun _ => none) ts2).created = [] ∧
    (processImport cs (processImport cs s0 true (fun _ => none) ts).store true
      (fun _ => none) ts2).updated = [] ∧
    (processImport cs (processImport cs s0 true (fun _ => none) ts).store true
      (fun _ => none) ts2).errors = [] ∧
    (processImport cs (processImport cs s0 true (fun _ => none) ts).store true
      (fun _ => none) ts2).store =
      (processImport cs s0 true (fun _ => none) ts).store := by
  have hpass1 : processImport cs s0 true (fun _ => none) ts =
      ⟨mkCreated ts 0 cs, [], [], [], cs.length, s0 ++ mkCreated ts 0 cs⟩ := by
    unfold processImport
    have h := pass1_loop ts s0 cs []
      H2 (fun c' hc' => absurd hc' (List.not_mem_nil c')) H4
    simpa [mkCreated] using h
  have hfind2 : ∀ c ∈ cs, ∃ p r,
      findExisting (s0 ++ mkCreated ts 0 cs) (interpData c) = some (p, r) ∧
      hasChanges r (interpData c) = false := by
    intro c hc
    obtain ⟨l1, l2, rfl⟩ := List.append_of_mem hc
    refine ⟨(s0 ++ mkCreated ts 0 l1).length,
      Interpreter.ofData (ts ++ "_" ++ toString l1.length) (interpData c), ?_,
      hasChanges_ofData _ _⟩
    have hsplit : s0 ++ mkCreated ts 0 (l1 ++ c :: l2) =
        (s0 ++ mkCreated ts 0 l1) ++
          Interpreter.ofData (ts ++ "_" ++ toString l1.length) (interpData c) ::
            mkCreated ts (l1.length + 1) l2 := by
      rw [mkCreated_append]
      simp [mkCreated, List.append_assoc]
    rw [hsplit]
    apply findExisting_eq_mid
    · intro k hk
      apply queryBy_append_none
      · have h0 := (findExisting_eq_none_iff s0 (interpData c)).mp (H2 c hc)
        simp only [matchKeys, List.mem_cons, List.mem_singleton,
          List.not_mem_nil, or_false] at hk
        rcases hk with rfl | rfl | rfl
        · exact h0.1
        · exact h0.2.1
        · exact h0.2.2
      · exact queryBy_mkCreated_none ts 0 l1 _ k hk
          (fun c' hc' => (List.pairwise_append.mp H4).2.2 c' hc'
            c (List.mem_cons_self _ _))
    · exact H3 c hc
  have hr2 : processImport cs
      (processImport cs s0 true (fun _ => none) ts).store true
      (fun _ => none) ts2 =
      ⟨[], [], cs.map (fun c => ⟨dget (interpData c) "email",
        dget (interpData c) "employee_id", "No changes detected"⟩), [], 0,
        s0 ++ mkCreated ts 0 cs⟩ := by
    rw [hpass1]
    unfold processImport
    have h := pass2_loop ts2 (s0 ++ mkCreated ts 0 cs) cs
      ⟨[], [], [], [], 0, s0 ++ mkCreated ts 0 cs⟩ rfl hfind2
    simpa using h
  rw [hr2, hpass1]
  exact ⟨mkCreated_length ts 0 cs, rfl, rfl, rfl, rfl, rfl, rfl, rfl, rfl⟩

/-- C3 counterexample: a candidate carrying no matching identifier
(`{"Full_Name": "Bob"}`) against an empty store is created on pass 1, but
pass 2 does not skip it — it creates a duplicate, growing the store to
two records. -/
theorem C3_counterexample :
    findExisting [] (interpData [("Full_Name", "Bob")]) = none ∧
    (processImport [[("Full_Name", "Bob")]] [] true
      (fun _ => none) "t").created.length = 1 ∧
    (processImport [[("Full_Name", "Bob")]]
      (processImport [[("Full_Name", "Bob")]] [] true (fun _ => none) "t").store
      true (fun _ => none) "t2").skipped = [] ∧
    (processImport [[("Full_Name", "Bob")]]
      (processImport [[("Full_Name", "Bob")]] [] true (fun _ => none) "t").store
      true (fun _ => none) "t2").created.length = 1 ∧
    (processImport [[("Full_Name", "Bob")]]
      (processImport [[("Full_Name", "Bob")]] [] true (fun _ => none) "t").store
      true (fun _ => none) "t2").store.length = 2 :=
  ⟨rfl, by decide, by decide, by decide, by decide⟩

/-- Witness for the amended C3: two email-carrying candidates are created
on pass 1 and skipped with "No changes detected" on pass 2. -/
theorem C3_reconciliation_idempotent_witness :
    (processImport [[("Full_Name", "Ana"), ("Email", "a@x.com")],
      [("Full_Name", "Bo"), ("Email", "b@x.com")]] [] true
      (fun _ => none) "t").created.length = 2 ∧
    (processImport [[("Full_Name", "Ana"), ("Email", "a@x.com")],
      [("Full_Name", "Bo"), ("Email", "b@x.com")]]
      (processImport [[("Full_Name", "Ana"), ("Email", "a@x.com")],
        [("Full_Name", "Bo"), ("Email", "b@x.com")]] [] true
        (fun _ => none) "t").store true (fun _ => none) "t2").skipped =
      [⟨some "a@x.com", none, "No changes detected"⟩,
       ⟨some "b@x.com", none, "No changes detected"⟩] := by
  have h := C3_reconciliation_idempotent
    [[("Full_Name", "Ana"), ("Email", "a@x.com")],
     [("Full_Name", "Bo"), ("Email", "b@x.com")]] [] "t" "t2"
    (by intro c hc; fin_cases hc <;> rfl)
    (by decide)
    (by decide)
  refine ⟨h.1, ?_⟩
  rw [h.2.2.2.2.1]
  decide

end Alfa
